import Mathlib

/-!
# Verification of the speech-synthesis pipelining scheduler

Shallow embedding of the core of `src/components/DatabaseBridge.tsx` (and of
the closely related variant `src/unnamed/part_001`, which carries the style
annotation and filler-insertion logic of the Text Segmenter): the text
segmenter, the change deduplicator, and the playback-aware pacing scheduler
loop `processQueueLoop`.

Modelling conventions:
* JavaScript strings are Lean `String`s (or `List Char` where character-level
  recursion is needed); float durations (`endOfQueueTime`, `duration`) are
  rationals, since the code only adds and compares the constants 0.1, 3.0 and
  15s against them.
* Time is idealised: each `setTimeout(100)` / `setTimeout(200)` sleep takes
  exactly its nominal duration and every other operation is instantaneous, so
  the 15-second arrival wait performs at most 150 polls (at t = 0ms, 100ms,
  ..., 14900ms).
* The time-varying environment (connection status, synthesis outcomes,
  successive `getAudioStreamerState()` snapshots) is an oracle record; each
  state read consumes the next index of the `streamer` stream, and the
  connection status is sampled once per outer iteration, exactly where the
  code reads it.
* The unbounded pipelining wait (`while (true) { ... }`) is given explicit
  fuel; exhausting the fuel yields the `outOfFuel` outcome, which corresponds
  to the real loop still being inside the wait (not to any exit path).
-/

namespace OrbBridge

/-! ## Text Segmenter (`segmentText`, DatabaseBridge.tsx lines 23-26)

`text.split(/\r?\n+/).map(t => t.trim()).filter(t => t.length > 0)`, guarded
by `if (!text) return []`. -/

/-- JS `String.prototype.trim` whitespace test (restricted to the ASCII
whitespace the rest of the code can produce). -/
def jsWS (c : Char) : Bool := c.isWhitespace

/-- JS `trim`: strip whitespace from both ends. -/
def trimChars (l : List Char) : List Char :=
  ((l.dropWhile jsWS).reverse.dropWhile jsWS).reverse

/-- JS `trim` at the `String` level (same function as `trimChars`, packaged
for the scheduler's blank-segment check). -/
def strTrim (s : String) : String :=
  ⟨trimChars s.data⟩

/-- Split at line breaks, the separators of the regex `\r?\n+`: each `\r\n`
pair or bare `\n` ends a fragment (a `\r` not followed by `\n` stays in its
fragment).  The regex collapses a run of consecutive breaks into one
separator where this function emits an empty fragment between adjacent
breaks; since every such extra fragment is empty and `segmentText` filters
out empty fragments after trimming, the composition below agrees with the
source's `split(/\r?\n+/)` pipeline on every input. -/
def splitLineBreaks : List Char → List (List Char)
  | [] => [[]]
  | '\r' :: '\n' :: rest => [] :: splitLineBreaks rest
  | '\n' :: rest => [] :: splitLineBreaks rest
  | c :: rest =>
      match splitLineBreaks rest with
      | [] => [[c]]
      | f :: fs => (c :: f) :: fs

/-- `segmentText` from DatabaseBridge.tsx lines 23-26 (identical in
part_001): split on line breaks, trim each fragment, discard empties. -/
def segmentText (text : List Char) : List (List Char) :=
  if text = [] then []
  else ((splitLineBreaks text).map trimChars).filter (fun s => decide (s ≠ []))

/-! ## Change Deduplicator (`processNewData` head, lines 204-209)

```
const source = data.full_transcript_text;
if (!data || !source) return;
if (lastProcessedIdRef.current === data.id) return;
lastProcessedIdRef.current = data.id;
```
identical in part_001 lines 221-226. -/

/-- The fields of a `Transcript` row that the deduplicator reads. -/
structure Transcript where
  id : String
  full_transcript_text : String
deriving DecidableEq

/-- The deduplicator's only mutable cell, `lastProcessedIdRef`. -/
structure DedupState where
  lastProcessedId : Option String
deriving DecidableEq

/-- The guard prefix of `processNewData`: returns whether the update is
accepted (processing proceeds) and the updated cell.  An empty transcript
text is falsy in JS, so it is discarded before the duplicate-id check. -/
def processNewDataGate (st : DedupState) (data : Transcript) :
    Bool × DedupState :=
  if data.full_transcript_text = "" then (false, st)
  else if st.lastProcessedId = some data.id then (false, st)
  else (true, ⟨some data.id⟩)

/-- Run the gate over a whole delivery sequence (updates arriving from the
push and poll channels, in arrival order); returns the list of accepted ids
and the final cell. -/
def runDedup (st : DedupState) : List Transcript → List String × DedupState
  | [] => ([], st)
  | d :: rest =>
      let r := processNewDataGate st d
      let tail := runDedup r.2 rest
      (if r.1 then d.id :: tail.1 else tail.1, tail.2)

/-! ## Segmenter enqueue with filler insertion (part_001 lines 236-247)

```
segments.forEach(seg => {
   queueRef.current.push(seg);
   paragraphCountRef.current += 1;
   if (paragraphCountRef.current > 0 && paragraphCountRef.current % 3 === 0) {
      queueRef.current.push('(clears throat)');
   }
});
```
-/

/-- The fixed filler fragment. -/
def fillerCue : String := "(clears throat)"

/-- Mutable state of the enqueue step: the lifetime paragraph counter and the
work queue. -/
structure SegState where
  paragraphCount : ℕ
  queue : List String
deriving DecidableEq

/-- The `forEach` body from part_001 lines 239-245: push each segment, bump
the lifetime counter, and push the filler after every 3rd cumulative
segment. -/
def enqueueSegments (st : SegState) : List String → SegState
  | [] => st
  | seg :: rest =>
      let c := st.paragraphCount + 1
      let q := st.queue ++ [seg]
      let q2 := if 0 < c ∧ c % 3 = 0 then q ++ [fillerCue] else q
      enqueueSegments ⟨c, q2⟩ rest

/-- Specification-side description of the enqueue result: each segment in
order, with the filler inserted right after a segment whenever the running
counter (starting at `c`) reaches a multiple of 3.  Used only to state the
refinement theorem for the filler-insertion claim. -/
def withFillers (c : ℕ) : List String → List String
  | [] => []
  | seg :: rest =>
      (if (c + 1) % 3 = 0 then [seg, fillerCue] else [seg]) ++
        withFillers (c + 1) rest

/-! ## Style annotation (part_001 lines 144-154)

```
const rawText = queueRef.current[0];
const style = voiceStyleRef.current;
let scriptedText = rawText;
if (rawText !== '(clears throat)') {
   if (style === 'breathy') {
     scriptedText = `(soft inhale) ${rawText} ... (pause)`;
   } else if (style === 'dramatic') {
      scriptedText = `(slowly) ${rawText} ... (long pause)`;
   }
}
```
-/

/-- The per-fragment style annotation applied by part_001's scheduler loop
before submission. -/
def annotateStyle (style rawText : String) : String :=
  if rawText = fillerCue then rawText
  else if style = "breathy" then "(soft inhale) " ++ rawText ++ " ... (pause)"
  else if style = "dramatic" then "(slowly) " ++ rawText ++ " ... (long pause)"
  else rawText

/-! ## Fallback text cleaning (DatabaseBridge.tsx line 165)

`const cleanText = scriptedText.replace(/^(Male|Female) \d:\s*/i, '');` -/

/-- Case-insensitive anchored match of a lowercase pattern; returns the rest
of the input on success. -/
def dropCi : List Char → List Char → Option (List Char)
  | [], rest => some rest
  | _ :: _, [] => none
  | p :: ps, c :: rest => if c.toLower = p then dropCi ps rest else none

/-- `replace(/^(Male|Female) \d:\s*/i, '')`: strip a leading speaker label
("Male D: " / "Female D: ", case-insensitive, single digit, any run of
whitespace after the colon); leave the string unchanged when the pattern does
not match at the start. -/
def stripSpeakerLabel (s : String) : String :=
  let afterWord : Option (List Char) :=
    match dropCi ['m', 'a', 'l', 'e'] s.data with
    | some r => some r
    | none => dropCi ['f', 'e', 'm', 'a', 'l', 'e'] s.data
  match afterWord with
  | some (' ' :: d :: ':' :: rest) =>
      if d.isDigit then ⟨rest.dropWhile Char.isWhitespace⟩ else s
  | _ => s

/-! ## The scheduler loop (`processQueueLoop`, DatabaseBridge.tsx 139-198) -/

/-- One `getAudioStreamerState()` snapshot. -/
structure StreamerState where
  endOfQueueTime : ℚ
  duration : ℚ
deriving DecidableEq

/-- The time-varying environment the loop runs against:
* `status n` — the value of `client.status === 'connected'` observed by the
  n-th top-of-iteration check;
* `synthOk t` — whether `generateMultiSpeakerAudio t` succeeds (its internal
  try/catch means it returns a boolean and never throws);
* `sendThrows t` — whether the fallback `client.send([{text: …}])` throws;
* `streamer n` — the n-th `getAudioStreamerState()` result (reads are
  numbered globally across the run). -/
structure SchedulerEnv where
  status : ℕ → Bool
  synthOk : String → Bool
  sendThrows : String → Bool
  streamer : ℕ → StreamerState

/-- Observable provider interactions, in emission order. -/
inductive SchedEvent where
  | synth (text : String)
  | fallback (text : String)
deriving DecidableEq

/-- Run state of the loop: the ref-backed queue and `isProcessingRef`, plus
the bookkeeping indices into the environment oracles and the event trace. -/
structure LoopState where
  queue : List String
  isProcessing : Bool
  reads : ℕ
  iter : ℕ
  events : List SchedEvent
deriving DecidableEq

/-- How a run of `processQueueLoop` ends.  `done` is the normal drain (the
`while` condition became false), `disconnected` the early return at lines
145-148, `errored` the catch/finally path after a thrown `client.send`,
`outOfFuel` a run still inside the unbounded pipelining wait (or out of outer
fuel), and `skipped` the `if (isProcessingRef.current) return` no-op. -/
inductive LoopOutcome where
  | done (s : LoopState)
  | disconnected (s : LoopState)
  | errored (s : LoopState)
  | outOfFuel (s : LoopState)
  | skipped (s : LoopState)
deriving DecidableEq

/-- The state carried by an outcome. -/
def LoopOutcome.state : LoopOutcome → LoopState
  | .done s | .disconnected s | .errored s | .outOfFuel s | .skipped s => s

/-- Arrival wait (lines 172-181): poll `endOfQueueTime` every 100ms while
`Date.now() - waitStart < 15000`, exiting with `audioArrived = true` as soon
as the reading exceeds the baseline by more than 0.1s.  `eoq k` is the k-th
polled value; with exact 100ms sleeps the k-th poll happens at t = 100·k ms,
so polls k = 0..149 occur and the wait gives up at k = 150.  Returns
`(audioArrived, number of the poll at which the loop stopped)`. -/
def arrivalWaitGo (eoq : ℕ → ℚ) (b : ℚ) : ℕ → ℕ → Bool × ℕ
  | 0, k => (false, k)
  | fuel + 1, k =>
      if b + mkRat 1 10 < eoq k then (true, k) else arrivalWaitGo eoq b fuel (k + 1)

/-- The arrival wait with its 15s budget of 150 polls. -/
def arrivalWait (eoq : ℕ → ℚ) (b : ℚ) : Bool × ℕ := arrivalWaitGo eoq b 150 0

/-- Pipelining wait (lines 187-191): `while (true)` polling `duration` every
200ms, breaking only when `duration < 3.0`.  The code has no timeout here, so
the model takes explicit fuel; `none` means the wait was still running after
`fuel` polls.  Returns the index of the successful poll. -/
def pipeliningWaitGo (dur : ℕ → ℚ) : ℕ → ℕ → Option ℕ
  | 0, _ => none
  | fuel + 1, k =>
      if dur k < 3 then some k else pipeliningWaitGo dur fuel (k + 1)

/-- The pipelining wait starting at poll 0. -/
def pipeliningWait (dur : ℕ → ℚ) (fuel : ℕ) : Option ℕ :=
  pipeliningWaitGo dur fuel 0

/-- The two waits of one iteration (lines 172-191): the arrival wait (from
baseline `pre`, first poll reading the `r1`-th streamer snapshot) followed by
the pipelining wait with `pfuel` polls of budget.  Returns `(finished,
reads)`: `finished = false` means the pipelining wait was still running after
`pfuel` polls; `reads` is the index of the next unconsumed streamer
snapshot. -/
def waitPhase (env : SchedulerEnv) (pfuel : ℕ) (pre : StreamerState)
    (r1 : ℕ) : Bool × ℕ :=
  let w := arrivalWait (fun k => (env.streamer (r1 + k)).endOfQueueTime)
    pre.endOfQueueTime
  let r2 := r1 + w.2 + (if w.1 then 1 else 0)
  match pipeliningWaitGo (fun k => (env.streamer (r2 + k)).duration) pfuel 0 with
  | none => (false, r2 + pfuel)
  | some k => (true, r2 + k + 1)

/-- The body of `processQueueLoop` after the flag has been set (the
`try`/`while` of lines 143-192 with the `finally` of line 196): one unit of
`fuel` per outer iteration, `pfuel` polls allowed in each pipelining wait.

Per iteration, mirroring the source order: the `while` condition (queue
non-empty), the connection check, the blank-segment skip, the
`getAudioStreamerState()` baseline, the primary synthesis call, the fallback
`client.send` with the label-stripped text on primary failure (which may
throw, reaching `catch`/`finally` with the segment still queued), the
unconditional `shift()`, the arrival wait and the pipelining wait. -/
def runLoop (env : SchedulerEnv) (pfuel : ℕ) : ℕ → LoopState → LoopOutcome
  | 0, s => .outOfFuel s
  | fuel + 1, s =>
      match s.queue with
      | [] => .done { s with isProcessing := false }
      | t :: rest =>
          if env.status s.iter = false then
            .disconnected { s with isProcessing := false }
          else if strTrim t = "" then
            runLoop env pfuel fuel { s with queue := rest, iter := s.iter + 1 }
          else if !env.synthOk t && env.sendThrows t then
            .errored { s with
              events := s.events ++
                [.synth t, .fallback (stripSpeakerLabel t)],
              reads := s.reads + 1,
              isProcessing := false }
          else if (waitPhase env pfuel (env.streamer s.reads) (s.reads + 1)).1 then
            runLoop env pfuel fuel { s with
              queue := rest,
              events := s.events ++
                (if env.synthOk t then [.synth t]
                 else [.synth t, .fallback (stripSpeakerLabel t)]),
              reads := (waitPhase env pfuel (env.streamer s.reads) (s.reads + 1)).2,
              iter := s.iter + 1 }
          else
            .outOfFuel { s with
              queue := rest,
              events := s.events ++
                (if env.synthOk t then [.synth t]
                 else [.synth t, .fallback (stripSpeakerLabel t)]),
              reads := (waitPhase env pfuel (env.streamer s.reads) (s.reads + 1)).2,
              iter := s.iter + 1 }

/-- `processQueueLoop`'s entry (lines 140-141): no-op if the single-flight
flag is already set, otherwise set it and run the body. -/
def startLoop (env : SchedulerEnv) (pfuel fuel : ℕ) (s : LoopState) :
    LoopOutcome :=
  if s.isProcessing then .skipped s
  else runLoop env pfuel fuel { s with isProcessing := true }

/-- The state at effect setup (line 134 forces `isProcessingRef.current =
false`; the queue holds whatever was left over). -/
def initState (queue : List String) : LoopState :=
  ⟨queue, false, 0, 0, []⟩

/-- The state right after a successful `startLoop` entry on a fresh queue. -/
def startState (queue : List String) : LoopState :=
  ⟨queue, true, 0, 0, []⟩

/-- Expected provider interactions for one segment: nothing for a blank
segment, the primary call for a successful one, primary plus label-stripped
fallback for a failed one. -/
def segEvents (synthOk : String → Bool) (t : String) : List SchedEvent :=
  if strTrim t = "" then []
  else if synthOk t then [.synth t]
  else [.synth t, .fallback (stripSpeakerLabel t)]

/-- Expected trace for a list of segments processed in order. -/
def traceOf (synthOk : String → Bool) : List String → List SchedEvent
  | [] => []
  | t :: rest => segEvents synthOk t ++ traceOf synthOk rest

/-- Recognise fallback events. -/
def SchedEvent.isFallback : SchedEvent → Bool
  | .fallback _ => true
  | .synth _ => false

/-- A cooperative environment: always connected, fallback never throws, and a
playback buffer whose `endOfQueueTime` advances on every read while its
`duration` stays at zero — so the arrival wait succeeds on its first poll and
the pipelining wait exits immediately. -/
def niceEnv (synthOk : String → Bool) : SchedulerEnv :=
  ⟨fun _ => true, synthOk, fun _ => false, fun n => ⟨(n : ℚ), 0⟩⟩

/-! ## Helper lemmas: the two wait loops -/

/-- If the threshold is crossed at the current poll, the arrival wait stops
there at once. -/
theorem arrivalWaitGo_hit0 (eoq : ℕ → ℚ) (b : ℚ) (fuel k : ℕ)
    (h : b + mkRat 1 10 < eoq k) :
    arrivalWaitGo eoq b (fuel + 1) k = (true, k) := by
  rw [arrivalWaitGo, if_pos h]

/-- If no poll in the window crosses the threshold, the arrival wait runs its
whole budget and reports no arrival. -/
theorem arrivalWaitGo_timeout (eoq : ℕ → ℚ) (b : ℚ) :
    ∀ (fuel k0 : ℕ), (∀ j, k0 ≤ j → j < k0 + fuel → ¬ b + mkRat 1 10 < eoq j) →
    arrivalWaitGo eoq b fuel k0 = (false, k0 + fuel) := by
  intro fuel
  induction fuel with
  | zero => intro k0 _; simp [arrivalWaitGo]
  | succ n ih =>
      intro k0 h
      have h0 : ¬ b + mkRat 1 10 < eoq k0 := h k0 le_rfl (by omega)
      have ht := ih (k0 + 1) (fun j hj hj2 => h j (by omega) (by omega))
      rw [arrivalWaitGo, if_neg h0, ht]
      simp only [Prod.mk.injEq]
      exact ⟨trivial, by omega⟩

/-- The arrival wait exits at the first poll that crosses the threshold. -/
theorem arrivalWaitGo_first_hit (eoq : ℕ → ℚ) (b : ℚ) :
    ∀ (fuel k0 k : ℕ), k0 ≤ k → k < k0 + fuel → b + mkRat 1 10 < eoq k →
    (∀ j, k0 ≤ j → j < k → ¬ b + mkRat 1 10 < eoq j) →
    arrivalWaitGo eoq b fuel k0 = (true, k) := by
  intro fuel
  induction fuel with
  | zero => intro k0 k h1 h2; omega
  | succ n ih =>
      intro k0 k h1 h2 hk hbefore
      by_cases h0 : b + mkRat 1 10 < eoq k0
      · have hek : k = k0 := by
          by_contra hne
          exact hbefore k0 le_rfl (by omega) h0
        subst hek
        rw [arrivalWaitGo, if_pos h0]
      · have hk0 : k0 ≠ k := fun he => h0 (he ▸ hk)
        have ht := ih (k0 + 1) k (by omega) (by omega) hk
          (fun j hj hj2 => hbefore j (by omega) hj2)
        rw [arrivalWaitGo, if_neg h0, ht]

/-- The arrival wait never polls past its budget. -/
theorem arrivalWaitGo_polls_le (eoq : ℕ → ℚ) (b : ℚ) :
    ∀ (fuel k0 : ℕ), (arrivalWaitGo eoq b fuel k0).2 ≤ k0 + fuel := by
  intro fuel
  induction fuel with
  | zero => intro k0; simp [arrivalWaitGo]
  | succ n ih =>
      intro k0
      rw [arrivalWaitGo]
      by_cases h0 : b + mkRat 1 10 < eoq k0
      · rw [if_pos h0]; omega
      · rw [if_neg h0]
        have := ih (k0 + 1)
        omega

/-- The pipelining wait returns `none` exactly when no poll in the window
sees the buffer below the 3.0s low-water mark. -/
theorem pipeliningWaitGo_none_iff (dur : ℕ → ℚ) :
    ∀ (fuel k0 : ℕ),
    pipeliningWaitGo dur fuel k0 = none ↔
      ∀ j, k0 ≤ j → j < k0 + fuel → ¬ dur j < 3 := by
  intro fuel
  induction fuel with
  | zero => intro k0; simp [pipeliningWaitGo]; intro j h1 h2; omega
  | succ n ih =>
      intro k0
      rw [pipeliningWaitGo]
      by_cases h0 : dur k0 < 3
      · rw [if_pos h0]
        constructor
        · intro h; exact absurd h (by simp)
        · intro h; exact absurd h0 (h k0 le_rfl (by omega))
      · rw [if_neg h0]
        rw [ih (k0 + 1)]
        constructor
        · intro h j h1 h2
          rcases Nat.eq_or_lt_of_le h1 with he | hl
          · exact he ▸ h0
          · exact h j hl (by omega)
        · intro h j h1 h2
          exact h j (by omega) (by omega)

/-- If the buffer is below the low-water mark at the current poll, the
pipelining wait exits there at once. -/
theorem pipeliningWaitGo_hit0 (dur : ℕ → ℚ) (fuel k : ℕ) (h : dur k < 3) :
    pipeliningWaitGo dur (fuel + 1) k = some k := by
  rw [pipeliningWaitGo, if_pos h]

/-! ## Helper lemmas: the scheduler loop -/

/-- For a non-blank segment the per-segment trace is the primary call, plus
the label-stripped fallback on primary failure. -/
theorem segEvents_nonblank (synthOk : String → Bool) (t : String)
    (h : ¬ strTrim t = "") :
    segEvents synthOk t =
      (if synthOk t then [.synth t]
       else [.synth t, .fallback (stripSpeakerLabel t)]) := by
  rw [segEvents, if_neg h]

/-- A blank segment contributes no provider interaction. -/
theorem segEvents_blank (synthOk : String → Bool) (t : String)
    (h : strTrim t = "") : segEvents synthOk t = [] := by
  rw [segEvents, if_pos h]

/-- `traceOf` distributes over list append. -/
theorem traceOf_append (synthOk : String → Bool) :
    ∀ (l1 l2 : List String),
    traceOf synthOk (l1 ++ l2) = traceOf synthOk l1 ++ traceOf synthOk l2 := by
  intro l1 l2
  induction l1 with
  | nil => simp [traceOf]
  | cons t rest ih => rw [List.cons_append, traceOf, traceOf, ih, List.append_assoc]

/-- Segments on which the primary adapter succeeds contribute no fallback
event. -/
theorem traceOf_filter_fallback_nil (synthOk : String → Bool) :
    ∀ (l : List String), (∀ t ∈ l, synthOk t = true) →
    (traceOf synthOk l).filter SchedEvent.isFallback = [] := by
  intro l
  induction l with
  | nil => intro _; simp [traceOf]
  | cons t rest ih =>
      intro h
      rw [traceOf, List.filter_append,
        ih (fun x hx => h x (List.mem_cons_of_mem _ hx)), List.append_nil]
      by_cases hbl : strTrim t = ""
      · rw [segEvents, if_pos hbl]; rfl
      · rw [segEvents, if_neg hbl, if_pos (h t (List.mem_cons_self t rest))]
        rfl

/-- On every exit path of the loop — normal drain (`done`), disconnection
early-exit, or a thrown error caught by the `finally` — the single-flight
flag is false. -/
theorem runLoop_flag_reset (env : SchedulerEnv) (pfuel : ℕ) :
    ∀ (fuel : ℕ) (s s' : LoopState),
    (runLoop env pfuel fuel s = .done s' ∨
     runLoop env pfuel fuel s = .disconnected s' ∨
     runLoop env pfuel fuel s = .errored s') → s'.isProcessing = false := by
  intro fuel
  induction fuel with
  | zero =>
      intro s s' h
      rcases h with h | h | h <;> simp [runLoop] at h
  | succ n ih =>
      intro s s' h
      rw [runLoop] at h
      split at h
      · rcases h with h | h | h
        · cases h; rfl
        · cases h
        · cases h
      · split at h
        · rcases h with h | h | h
          · cases h
          · cases h; rfl
          · cases h
        · split at h
          · exact ih _ _ h
          · split at h
            · rcases h with h | h | h
              · cases h
              · cases h
              · cases h; rfl
            · split at h
              · exact ih _ _ h
              · rcases h with h | h | h <;> cases h

/-- A normal drain completion leaves the queue empty: `done` only arises from
the `while` condition failing. -/
theorem runLoop_done_queue_nil (env : SchedulerEnv) (pfuel : ℕ) :
    ∀ (fuel : ℕ) (s s' : LoopState),
    runLoop env pfuel fuel s = .done s' → s'.queue = [] := by
  intro fuel
  induction fuel with
  | zero => intro s s' h; simp [runLoop] at h
  | succ n ih =>
      intro s s' h
      rw [runLoop] at h
      split at h
      · next heq => cases h; simpa using heq
      · split at h
        · cases h
        · split at h
          · exact ih _ _ h
          · split at h
            · cases h
            · split at h
              · exact ih _ _ h
              · cases h

/-- FIFO decomposition: as long as the fallback channel does not throw, any
run of the loop splits the starting queue as `processed ++ remaining`, where
`remaining` is the final queue and the events appended by the run are exactly
`traceOf` of the processed prefix — each processed segment is submitted at
most once, in enqueue order, and removal is head-only. -/
theorem runLoop_trace (env : SchedulerEnv) (pfuel : ℕ)
    (hnt : ∀ t, env.sendThrows t = false) :
    ∀ (fuel : ℕ) (s : LoopState), ∃ dp,
      s.queue = dp ++ ((runLoop env pfuel fuel s).state).queue ∧
      ((runLoop env pfuel fuel s).state).events =
        s.events ++ traceOf env.synthOk dp := by
  intro fuel
  induction fuel with
  | zero =>
      intro s
      exact ⟨[], by simp [runLoop, LoopOutcome.state, traceOf]⟩
  | succ n ih =>
      intro s
      rw [runLoop]
      split
      · next heq =>
          exact ⟨[], by simp [LoopOutcome.state, traceOf, heq]⟩
      · next t rest heq =>
          split
          · exact ⟨[], by simp [LoopOutcome.state, traceOf, heq]⟩
          · split
            · next hblank =>
                obtain ⟨dp', h1, h2⟩ := ih { s with queue := rest, iter := s.iter + 1 }
                refine ⟨t :: dp', ?_, ?_⟩
                · simpa [heq] using h1
                · simpa [traceOf, segEvents_blank env.synthOk t hblank] using h2
            · next hblank =>
                split
                · next herr =>
                    rw [hnt t] at herr
                    simp at herr
                · split
                  · obtain ⟨dp', h1, h2⟩ := ih { s with
                      queue := rest,
                      events := s.events ++
                        (if env.synthOk t then [.synth t]
                         else [.synth t, .fallback (stripSpeakerLabel t)]),
                      reads := (waitPhase env pfuel (env.streamer s.reads) (s.reads + 1)).2,
                      iter := s.iter + 1 }
                    refine ⟨t :: dp', ?_, ?_⟩
                    · simpa [heq] using h1
                    · rw [h2]
                      simp [traceOf, segEvents_nonblank env.synthOk t hblank,
                        List.append_assoc]
                  · refine ⟨[t], ?_, ?_⟩
                    · simp [LoopOutcome.state, heq]
                    · simp [LoopOutcome.state, traceOf,
                        segEvents_nonblank env.synthOk t hblank]

/-- Disconnection observed at the top of an iteration with work remaining
makes the loop exit at once, with the flag cleared and no event emitted. -/
theorem runLoop_disconnect_exit (env : SchedulerEnv) (pfuel fuel : ℕ)
    (s : LoopState) (t : String) (rest : List String)
    (hq : s.queue = t :: rest) (hst : env.status s.iter = false) :
    runLoop env pfuel (fuel + 1) s = .disconnected { s with isProcessing := false } := by
  obtain ⟨q, flag, r, i, evs⟩ := s
  simp only at hq hst
  subst hq
  rw [runLoop]
  simp only [hst, reduceIte]

/-- Against the cooperative environment, the arrival wait succeeds on its
first poll: `endOfQueueTime` has advanced by a full second. -/
theorem arrival_nice (synthOk : String → Bool) (r : ℕ) :
    arrivalWait (fun k => ((niceEnv synthOk).streamer (r + 1 + k)).endOfQueueTime)
      ((niceEnv synthOk).streamer r).endOfQueueTime = (true, 0) := by
  rw [arrivalWait, show (150 : ℕ) = 149 + 1 from rfl]
  apply arrivalWaitGo_hit0
  show ((r : ℚ)) + mkRat 1 10 < ((r + 1 + 0 : ℕ) : ℚ)
  have h10 : (mkRat 1 10 : ℚ) = 1 / 10 := by
    rw [Rat.mkRat_eq_divInt, Rat.divInt_eq_div]
    norm_num
  rw [h10]
  push_cast
  linarith

/-- Against the cooperative environment, one iteration's wait phase finishes,
consuming exactly two snapshot reads. -/
theorem waitPhase_nice (synthOk : String → Bool) (r : ℕ) :
    waitPhase (niceEnv synthOk) 1 ((niceEnv synthOk).streamer r) (r + 1) =
      (true, r + 3) := by
  rw [waitPhase]
  rw [arrival_nice synthOk r]
  norm_num
  have hp : pipeliningWaitGo
      (fun k => ((niceEnv synthOk).streamer (r + 1 + 1 + k)).duration)
      1 0 = some 0 := by
    rw [show (1 : ℕ) = 0 + 1 from rfl]
    apply pipeliningWaitGo_hit0
    show (0 : ℚ) < 3
    norm_num
  rw [hp]

/-- Against the cooperative environment the loop drains any queue completely,
with `queue.length + 1` iterations of fuel, emitting exactly the expected
trace. -/
theorem runLoop_nice_done (synthOk : String → Bool) :
    ∀ (queue : List String) (r i : ℕ) (evs : List SchedEvent),
    ∃ r' i',
      runLoop (niceEnv synthOk) 1 (queue.length + 1) ⟨queue, true, r, i, evs⟩ =
        .done ⟨[], false, r', i', evs ++ traceOf synthOk queue⟩ := by
  intro queue
  induction queue with
  | nil =>
      intro r i evs
      exact ⟨r, i, by simp [runLoop, traceOf]⟩
  | cons t rest ih =>
      intro r i evs
      have hst : (niceEnv synthOk).status i = true := rfl
      have hsend : (niceEnv synthOk).sendThrows t = false := rfl
      have hsy : (niceEnv synthOk).synthOk = synthOk := rfl
      by_cases hbl : strTrim t = ""
      · obtain ⟨r', i', hrun⟩ := ih r (i + 1) evs
        refine ⟨r', i', ?_⟩
        rw [List.length_cons, runLoop]
        simp only [hst, hbl, Bool.true_eq_false, if_false, if_true, ite_true,
          ite_false, reduceIte]
        rw [hrun]
        rw [traceOf, segEvents, if_pos hbl, List.nil_append]
      · obtain ⟨r', i', hrun⟩ := ih (r + 3) (i + 1)
          (evs ++ (if synthOk t then [.synth t]
                   else [.synth t, .fallback (stripSpeakerLabel t)]))
        refine ⟨r', i', ?_⟩
        rw [List.length_cons, runLoop]
        simp only [hst, hsend, hsy, hbl, Bool.true_eq_false, Bool.false_eq_true,
          Bool.and_false, reduceIte, waitPhase_nice synthOk r]
        rw [hrun, traceOf, segEvents, if_neg hbl, List.append_assoc]

/-! ## Helper lemmas: the deduplicator -/

theorem gate_accept_iff (st : DedupState) (u : Transcript) :
    (processNewDataGate st u).1 = true ↔
      u.full_transcript_text ≠ "" ∧ st.lastProcessedId ≠ some u.id := by
  rw [processNewDataGate]
  by_cases h1 : u.full_transcript_text = ""
  · simp [h1]
  · by_cases h2 : st.lastProcessedId = some u.id
    · simp [h1, h2]
    · simp [h1, h2]

theorem gate_true_state (st : DedupState) (u : Transcript)
    (h : (processNewDataGate st u).1 = true) :
    (processNewDataGate st u).2 = ⟨some u.id⟩ := by
  rw [processNewDataGate] at h ⊢
  by_cases h1 : u.full_transcript_text = ""
  · simp [h1] at h
  · by_cases h2 : st.lastProcessedId = some u.id
    · simp [h1, h2] at h
    · simp [h1, h2]

theorem gate_false_state (st : DedupState) (u : Transcript)
    (h : (processNewDataGate st u).1 = false) :
    (processNewDataGate st u).2 = st := by
  rw [processNewDataGate] at h ⊢
  by_cases h1 : u.full_transcript_text = ""
  · simp [h1]
  · by_cases h2 : st.lastProcessedId = some u.id
    · simp [h1, h2]
    · simp [h1, h2] at h

theorem runDedup_chain (l : List Transcript) :
    ∀ (st : DedupState),
    ((runDedup st l).1).Chain' (· ≠ ·) ∧
    (∀ i h, st.lastProcessedId = some i →
      ((runDedup st l).1).head? = some h → h ≠ i) := by
  induction l with
  | nil =>
      intro st
      refine ⟨by simp [runDedup], ?_⟩
      intro i h _ hh
      simp [runDedup] at hh
  | cons d rest ih =>
      intro st
      by_cases hacc : (processNewDataGate st d).1 = true
      · have hst2 := gate_true_state st d hacc
        have hids := (gate_accept_iff st d).mp hacc
        have hres : (runDedup st (d :: rest)).1 =
            d.id :: (runDedup ⟨some d.id⟩ rest).1 := by
          rw [runDedup]
          simp only [hst2, hacc, if_true]
        constructor
        · rw [hres, List.chain'_cons']
          refine ⟨?_, (ih ⟨some d.id⟩).1⟩
          intro h hh
          exact Ne.symm ((ih ⟨some d.id⟩).2 d.id h rfl hh)
        · intro i h hi hh
          rw [hres] at hh
          simp at hh
          subst hh
          intro he
          exact hids.2 (by rw [hi, he])
      · have hacc' : (processNewDataGate st d).1 = false :=
          Bool.eq_false_iff.mpr hacc
        have hst2 := gate_false_state st d hacc'
        have hres : (runDedup st (d :: rest)).1 = (runDedup st rest).1 := by
          rw [runDedup]
          simp only [hst2, hacc', Bool.false_eq_true, if_false, reduceIte]
        constructor
        · rw [hres]; exact (ih st).1
        · intro i h hi hh
          rw [hres] at hh
          exact (ih st).2 i h hi hh

/-! ## Helper lemmas: the segmenter -/

theorem trimChars_eq (l : List Char) :
    trimChars l = List.rdropWhile jsWS (l.dropWhile jsWS) := rfl

theorem dropWhile_trimChars (l : List Char) :
    (trimChars l).dropWhile jsWS = trimChars l := by
  rw [trimChars_eq]
  rcases hm : List.rdropWhile jsWS (l.dropWhile jsWS) with _ | ⟨x, m'⟩
  · simp
  · have hpre := List.rdropWhile_prefix jsWS (l.dropWhile jsWS)
    rw [hm] at hpre
    obtain ⟨t, ht⟩ := hpre
    have ha : (l.dropWhile jsWS).dropWhile jsWS = l.dropWhile jsWS :=
      List.dropWhile_idempotent jsWS l
    by_cases hx : jsWS x = true
    · exfalso
      rw [← ht, List.cons_append, List.dropWhile_cons_of_pos hx] at ha
      have hlen := (List.dropWhile_sublist (l := m' ++ t) (p := jsWS)).length_le
      have hc := congrArg List.length ha
      simp only [List.length_cons] at hc
      omega
    · rw [List.dropWhile_cons_of_neg hx]

theorem trimChars_idem (l : List Char) : trimChars (trimChars l) = trimChars l := by
  rw [trimChars_eq (trimChars l), dropWhile_trimChars l, trimChars_eq l,
    List.rdropWhile_idempotent]

theorem filter_map_length (f : List Char → List Char) (P : List Char → Bool) :
    ∀ (l : List (List Char)),
    ((l.map f).filter P).length = (l.filter (fun x => P (f x))).length := by
  intro l
  induction l with
  | nil => rfl
  | cons a rest ih =>
      simp only [List.map_cons, List.filter_cons]
      by_cases h : P (f a) = true
      · simp [h, ih]
      · simp [h, ih]

theorem segmentText_length (t : List Char) :
    (segmentText t).length =
      ((splitLineBreaks t).filter (fun l => decide (trimChars l ≠ []))).length := by
  rw [segmentText]
  split
  · next h =>
      subst h
      simp [splitLineBreaks, trimChars, List.dropWhile]
  · exact filter_map_length trimChars (fun s => decide (s ≠ [])) (splitLineBreaks t)

theorem segmentText_mem (t s : List Char) (h : s ∈ segmentText t) :
    trimChars s = s ∧ s ≠ [] := by
  rw [segmentText] at h
  split at h
  · cases h
  · rw [List.mem_filter] at h
    obtain ⟨hmem, hne⟩ := h
    rw [List.mem_map] at hmem
    obtain ⟨orig, _, rfl⟩ := hmem
    exact ⟨trimChars_idem orig, by simpa using hne⟩

theorem segmentText_sublist (t : List Char) :
    (segmentText t).Sublist ((splitLineBreaks t).map trimChars) := by
  rw [segmentText]
  split
  · exact List.nil_sublist _
  · exact List.filter_sublist _

theorem enqueueSegments_spec :
    ∀ (segs : List String) (c : ℕ) (q : List String),
    enqueueSegments ⟨c, q⟩ segs = ⟨c + segs.length, q ++ withFillers c segs⟩ := by
  intro segs
  induction segs with
  | nil => intro c q; simp [enqueueSegments, withFillers]
  | cons seg rest ih =>
      intro c q
      rw [enqueueSegments, withFillers]
      have h0 : 0 < c + 1 := Nat.succ_pos c
      by_cases h3 : (c + 1) % 3 = 0
      · rw [if_pos ⟨h0, h3⟩, if_pos h3, ih]
        have hc : c + 1 + rest.length = c + (rest.length + 1) := by omega
        simp [hc, List.append_assoc]
      · rw [if_neg (fun hc => h3 hc.2), if_neg h3, ih]
        have hc : c + 1 + rest.length = c + (rest.length + 1) := by omega
        simp [hc, List.append_assoc]

end OrbBridge

section ClaimTheorems

attribute [local semireducible] Rat.add

namespace OrbBridge

/-- C1: for every queue and every synthesis adapter the scheduler processes
segments strictly in FIFO enqueue order — any run decomposes the queue as
`processed ++ remaining` with the event trace exactly `traceOf` of the
processed prefix (each segment submitted at most once, head removed each
iteration, no re-queue on failure, no skipping, no reordering); a completed
drain against a cooperative buffer ends with an empty queue and the full
trace; on the queue `[A, B, C]` with an always-succeeding adapter the
adapter is invoked in order A, B, C and the queue is empty at loop end. -/
theorem claim1_scheduler_fifo :
    (∀ (queue : List String) (synthOk : String → Bool), ∃ s',
       startLoop (niceEnv synthOk) 1 (queue.length + 1) (initState queue) = .done s' ∧
       s'.queue = [] ∧ s'.isProcessing = false ∧
       s'.events = traceOf synthOk queue) ∧
    (∀ (env : SchedulerEnv) (pfuel fuel : ℕ) (s : LoopState),
       (∀ t, env.sendThrows t = false) → ∃ dp,
       s.queue = dp ++ ((runLoop env pfuel fuel s).state).queue ∧
       ((runLoop env pfuel fuel s).state).events =
         s.events ++ traceOf env.synthOk dp) ∧
    startLoop (niceEnv (fun _ => true)) 1 4 (initState ["A", "B", "C"]) =
      .done ⟨[], false, 9, 3, [.synth "A", .synth "B", .synth "C"]⟩ := by
  refine ⟨?_, ?_, by decide⟩
  · intro queue synthOk
    obtain ⟨r', i', h⟩ := runLoop_nice_done synthOk queue 0 0 []
    refine ⟨⟨[], false, r', i', traceOf synthOk queue⟩, ?_, rfl, rfl, rfl⟩
    rw [startLoop, if_neg (by simp [initState])]
    simpa [initState] using h
  · intro env pfuel fuel s hnt
    exact runLoop_trace env pfuel hnt fuel s

/-- Witness for C1: the FIFO decomposition applied at a concrete input. -/
theorem claim1_scheduler_fifo_witness :
    ∃ dp, (startState ["A"]).queue =
        dp ++ ((runLoop (niceEnv (fun _ => true)) 1 2 (startState ["A"])).state).queue ∧
      ((runLoop (niceEnv (fun _ => true)) 1 2 (startState ["A"])).state).events =
        (startState ["A"]).events ++ traceOf (fun _ => true) dp :=
  claim1_scheduler_fifo.2.1 (niceEnv (fun _ => true)) 1 2 (startState ["A"])
    (fun _ => rfl)

/-- C2 counterexample: the claim that the pipelining wait terminates within a
bounded time even when the remaining duration never drops below the 3.0s
low-water mark is false — for the buffer that constantly reports 5.0s the
wait never returns, for any poll budget. -/
theorem claim2_counterexample :
    ¬ ∀ (dur : ℕ → ℚ), (∀ k, 3 ≤ dur k) →
      ∃ fuel k, pipeliningWait dur fuel = some k := by
  intro h
  obtain ⟨fuel, k, hk⟩ := h (fun _ => 5) (fun _ => by norm_num)
  have hnone : pipeliningWait (fun _ => 5) fuel = none := by
    rw [pipeliningWait, pipeliningWaitGo_none_iff]
    intro j _ _
    norm_num
  rw [hnone] at hk
  cases hk

/-- C2 amended: the arrival wait is time-bounded (at most 150 polls, 15s),
but the pipelining wait is not — it returns within `fuel` polls exactly when
some poll among the first `fuel` sees the duration below 3.0s, and it never
terminates when the duration stays at or above 3.0s. -/
theorem claim2_waits_amended :
    (∀ (eoq : ℕ → ℚ) (b : ℚ), (arrivalWait eoq b).2 ≤ 150) ∧
    (∀ (dur : ℕ → ℚ) (fuel : ℕ),
       pipeliningWait dur fuel = none ↔ ∀ k, k < fuel → ¬ dur k < 3) := by
  constructor
  · intro eoq b
    have h := arrivalWaitGo_polls_le eoq b 150 0
    rw [arrivalWait]
    omega
  · intro dur fuel
    rw [pipeliningWait, pipeliningWaitGo_none_iff]
    constructor
    · intro h k h2
      exact h k (by omega) (by omega)
    · intro h j h1 h2
      exact h j (by omega)

/-- Witness for C2 amended at concrete inputs. -/
theorem claim2_waits_amended_witness :
    (arrivalWait (fun _ => 0) 0).2 ≤ 150 ∧
    pipeliningWait (fun _ => 5) 3 = none :=
  ⟨claim2_waits_amended.1 (fun _ => 0) 0,
   (claim2_waits_amended.2 (fun _ => 5) 3).mpr (fun k _ => by norm_num)⟩

/-- C3 counterexample: the deduplicator does not accept each distinct id
exactly once — over the delivery sequence with ids A, B, A (all non-empty
texts) the id A is accepted twice, because only the most recently accepted id
is remembered. -/
theorem claim3_counterexample :
    (runDedup ⟨none⟩ [⟨"A", "x"⟩, ⟨"B", "y"⟩, ⟨"A", "x"⟩]).1 = ["A", "B", "A"] ∧
    ((runDedup ⟨none⟩ [⟨"A", "x"⟩, ⟨"B", "y"⟩, ⟨"A", "x"⟩]).1).count "A" = 2 := by
  decide

/-- C3 amended: for updates with non-empty text, rejection happens exactly
when the id equals the most recently accepted id; acceptance updates the
last-accepted-id cell to the new id; consequently consecutive accepted ids
are always distinct (each id is accepted at most once per run of consecutive
deliveries), though an id may be accepted again after a different id has
been accepted in between. -/
theorem claim3_dedup_amended :
    (∀ (st : DedupState) (u : Transcript), u.full_transcript_text ≠ "" →
       ((processNewDataGate st u).1 = false ↔ st.lastProcessedId = some u.id)) ∧
    (∀ (st : DedupState) (u : Transcript), (processNewDataGate st u).1 = true →
       (processNewDataGate st u).2.lastProcessedId = some u.id) ∧
    (∀ (st : DedupState) (l : List Transcript),
       ((runDedup st l).1).Chain' (· ≠ ·)) := by
  refine ⟨?_, ?_, ?_⟩
  · intro st u h
    constructor
    · intro hf
      by_contra hne
      have hacc : (processNewDataGate st u).1 = true :=
        (gate_accept_iff st u).mpr ⟨h, hne⟩
      rw [hacc] at hf
      cases hf
    · intro he
      cases hb : (processNewDataGate st u).1
      · rfl
      · exact absurd he ((gate_accept_iff st u).mp hb).2
  · intro st u h
    rw [gate_true_state st u h]
  · intro st l
    exact (runDedup_chain l st).1

/-- Witness for C3 amended at concrete inputs. -/
theorem claim3_dedup_amended_witness :
    ((processNewDataGate ⟨none⟩ ⟨"A", "x"⟩).1 = false ↔
      (⟨none⟩ : DedupState).lastProcessedId = some "A") ∧
    ((runDedup ⟨some "A"⟩ [⟨"B", "y"⟩]).1).Chain' (· ≠ ·) :=
  ⟨claim3_dedup_amended.1 ⟨none⟩ ⟨"A", "x"⟩ (by decide),
   claim3_dedup_amended.2.2 ⟨some "A"⟩ [⟨"B", "y"⟩]⟩

/-- C4: the arrival wait polls `endOfQueueTime` every 100ms against the
pre-send baseline, exits at the first poll that exceeds the baseline by more
than 0.1s, gives up after 150 polls (15 seconds), and never polls beyond
that budget; reaching the timeout does not abort the loop — with a buffer
whose `endOfQueueTime` never advances, both segments still go through their
full 150-poll wait and the drain completes normally. -/
theorem claim4_arrival_wait :
    (∀ (eoq : ℕ → ℚ) (b : ℚ) (k : ℕ), k < 150 → b + mkRat 1 10 < eoq k →
       (∀ j, j < k → ¬ b + mkRat 1 10 < eoq j) → arrivalWait eoq b = (true, k)) ∧
    (∀ (eoq : ℕ → ℚ) (b : ℚ), (∀ j, j < 150 → ¬ b + mkRat 1 10 < eoq j) →
       arrivalWait eoq b = (false, 150)) ∧
    (∀ (eoq : ℕ → ℚ) (b : ℚ), (arrivalWait eoq b).2 ≤ 150) ∧
    runLoop ⟨fun _ => true, fun _ => true, fun _ => false, fun _ => ⟨0, 0⟩⟩ 1 3
        (startState ["A", "B"]) =
      .done ⟨[], false, 304, 2, [.synth "A", .synth "B"]⟩ := by
  refine ⟨?_, ?_, ?_, by decide⟩
  · intro eoq b k h1 h2 h3
    rw [arrivalWait]
    exact arrivalWaitGo_first_hit eoq b 150 0 k (Nat.zero_le k) (by omega) h2
      (fun j _ hj2 => h3 j hj2)
  · intro eoq b h
    rw [arrivalWait]
    have ht := arrivalWaitGo_timeout eoq b 150 0 (fun j _ hj2 => h j (by omega))
    simpa using ht
  · intro eoq b
    rw [arrivalWait]
    have := arrivalWaitGo_polls_le eoq b 150 0
    omega

/-- Witness for C4 at a concrete input: a buffer that advances immediately
makes the wait exit at poll 0. -/
theorem claim4_arrival_wait_witness :
    arrivalWait (fun _ => 1) 0 = (true, 0) :=
  claim4_arrival_wait.1 (fun _ => 1) 0 0 (by norm_num)
    (by rw [show ((0 : ℚ) + mkRat 1 10) = mkRat 1 10 by ring]; decide)
    (fun j hj => absurd hj (Nat.not_lt_zero j))

/-- C5: when the primary adapter fails exactly on one segment B (non-blank,
occurring once) and succeeds on all others, a full drain invokes the
fallback exactly once, for B only, submitting B's label-stripped (raw,
unannotated) text through the lower-fidelity channel; all other segments use
only the primary path and the loop still ends with an empty queue. -/
theorem claim5_fallback_once (pre post : List String) (B : String)
    (hpre : B ∉ pre) (hpost : B ∉ post) (hB : ¬ strTrim B = "") :
    ∃ s',
      startLoop (niceEnv (fun t => !(t == B))) 1 ((pre ++ B :: post).length + 1)
        (initState (pre ++ B :: post)) = .done s' ∧
      s'.queue = [] ∧
      s'.events = traceOf (fun t => !(t == B)) (pre ++ B :: post) ∧
      s'.events.filter SchedEvent.isFallback =
        [.fallback (stripSpeakerLabel B)] := by
  obtain ⟨r', i', h⟩ :=
    runLoop_nice_done (fun t => !(t == B)) (pre ++ B :: post) 0 0 []
  refine ⟨⟨[], false, r', i',
    traceOf (fun t => !(t == B)) (pre ++ B :: post)⟩, ?_, rfl, rfl, ?_⟩
  · rw [startLoop, if_neg (by simp [initState])]
    simpa [initState] using h
  · rw [traceOf_append, List.filter_append,
      traceOf_filter_fallback_nil _ pre
        (fun t ht => by
          have hne : t ≠ B := ne_of_mem_of_not_mem ht hpre
          simp [hne]),
      traceOf, List.filter_append,
      traceOf_filter_fallback_nil _ post
        (fun t ht => by
          have hne : t ≠ B := ne_of_mem_of_not_mem ht hpost
          simp [hne]),
      segEvents, if_neg hB, if_neg (by simp)]
    rfl

/-- Witness for C5 on the queue `[A, B, C]` with the adapter failing on B
(diarized speaker-label texts, so the stripped fallback text is visible). -/
theorem claim5_fallback_once_witness :
    ∃ s',
      startLoop (niceEnv (fun t => !(t == "Male 1: B"))) 1
        ((["Male 1: A"] ++ "Male 1: B" :: ["Male 1: C"]).length + 1)
        (initState (["Male 1: A"] ++ "Male 1: B" :: ["Male 1: C"])) = .done s' ∧
      s'.queue = [] ∧
      s'.events = traceOf (fun t => !(t == "Male 1: B"))
        (["Male 1: A"] ++ "Male 1: B" :: ["Male 1: C"]) ∧
      s'.events.filter SchedEvent.isFallback =
        [.fallback (stripSpeakerLabel "Male 1: B")] :=
  claim5_fallback_once ["Male 1: A"] ["Male 1: C"] "Male 1: B"
    (by decide) (by decide) (by decide)

/-- C6: single-flight invariant — the flag starts false; `startLoop` is a
no-op when the flag is already true and otherwise runs the body with the
flag set; and on every exit path (normal drain, thrown error, disconnection
early-exit) the flag is reset to false. -/
theorem claim6_single_flight :
    (∀ queue, (initState queue).isProcessing = false) ∧
    (∀ (env : SchedulerEnv) (pfuel fuel : ℕ) (s : LoopState),
       s.isProcessing = true → startLoop env pfuel fuel s = .skipped s) ∧
    (∀ (env : SchedulerEnv) (pfuel fuel : ℕ) (s : LoopState),
       s.isProcessing = false →
       startLoop env pfuel fuel s =
         runLoop env pfuel fuel { s with isProcessing := true }) ∧
    (∀ (env : SchedulerEnv) (pfuel fuel : ℕ) (s s' : LoopState),
       (runLoop env pfuel fuel s = .done s' ∨
        runLoop env pfuel fuel s = .disconnected s' ∨
        runLoop env pfuel fuel s = .errored s') → s'.isProcessing = false) := by
  refine ⟨fun _ => rfl, ?_, ?_, ?_⟩
  · intro env pfuel fuel s h
    rw [startLoop, if_pos h]
  · intro env pfuel fuel s h
    rw [startLoop, if_neg (by simp [h])]
  · intro env pfuel fuel s s' h
    exact runLoop_flag_reset env pfuel fuel s s' h

/-- Witness for C6 at concrete inputs: a started loop refuses a second
start, and a drained run has the flag false. -/
theorem claim6_single_flight_witness :
    startLoop (niceEnv (fun _ => true)) 1 1 ⟨["A"], true, 0, 0, []⟩ =
      .skipped ⟨["A"], true, 0, 0, []⟩ ∧
    (⟨[], false, 0, 0, []⟩ : LoopState).isProcessing = false :=
  ⟨claim6_single_flight.2.1 (niceEnv (fun _ => true)) 1 1 ⟨["A"], true, 0, 0, []⟩ rfl,
   claim6_single_flight.2.2.2 (niceEnv (fun _ => true)) 1 1 (startState [])
     ⟨[], false, 0, 0, []⟩ (Or.inl (by decide))⟩

/-- C7 counterexample: the poll cycles do not observe the connection status.
In this run the connection is up only for the very first status observation
(iteration 0); every later observation point sees it down, yet the loop —
stuck in the pipelining wait against a buffer that constantly reports 5.0s —
performs 200 further polls (40+ seconds) without exiting, with the
processing flag still true, and never resets it.  Under the claim the loop
would have observed the disconnection at a poll-cycle top and exited with
the flag false. -/
theorem claim7_counterexample :
    runLoop ⟨fun n => n == 0, fun _ => true, fun _ => false,
        fun n => ⟨(n : ℚ), 5⟩⟩ 200 2 (startState ["A"]) =
      .outOfFuel ⟨[], true, 202, 1, [.synth "A"]⟩ ∧
    ((runLoop ⟨fun n => n == 0, fun _ => true, fun _ => false,
        fun n => ⟨(n : ℚ), 5⟩⟩ 200 2 (startState ["A"])).state).isProcessing =
      true := by
  constructor
  · decide
  · decide

/-- C7 amended: the connection status is observed at the top of every outer
iteration (only); when it is observed false with work still queued, the loop
exits immediately as `disconnected` — before issuing any further synthesis
call (no event is added) — and resets the processing flag to false.  The
poll cycles inside the two waits do not observe the status. -/
theorem claim7_disconnect_amended (env : SchedulerEnv) (pfuel fuel : ℕ)
    (s : LoopState) (t : String) (rest : List String)
    (hq : s.queue = t :: rest) (hst : env.status s.iter = false) :
    runLoop env pfuel (fuel + 1) s =
      .disconnected { s with isProcessing := false } ∧
    ((runLoop env pfuel (fuel + 1) s).state).events = s.events ∧
    ((runLoop env pfuel (fuel + 1) s).state).isProcessing = false := by
  have h := runLoop_disconnect_exit env pfuel fuel s t rest hq hst
  rw [h]
  exact ⟨rfl, rfl, rfl⟩

/-- Witness for C7 amended at a concrete input. -/
theorem claim7_disconnect_amended_witness :
    runLoop ⟨fun _ => false, fun _ => true, fun _ => false, fun _ => ⟨0, 0⟩⟩ 1 1
        (startState ["A"]) =
      .disconnected ⟨["A"], false, 0, 0, []⟩ ∧
    ((runLoop ⟨fun _ => false, fun _ => true, fun _ => false, fun _ => ⟨0, 0⟩⟩ 1 1
        (startState ["A"])).state).events = (startState ["A"]).events ∧
    ((runLoop ⟨fun _ => false, fun _ => true, fun _ => false, fun _ => ⟨0, 0⟩⟩ 1 1
        (startState ["A"])).state).isProcessing = false :=
  claim7_disconnect_amended
    ⟨fun _ => false, fun _ => true, fun _ => false, fun _ => ⟨0, 0⟩⟩ 1 0
    (startState ["A"]) "A" [] rfl rfl

/-- C8: the segmenter produces exactly one segment per line that is
non-empty after trimming, each segment is trimmed (a fixed point of trim)
and non-empty, and the segments are a sublist of the trimmed lines in
original order; and the part_001 enqueue step appends the segments in order,
inserting the fixed filler fragment after every 3rd cumulative segment of a
running lifetime counter that is carried across calls, never reset. -/
theorem claim8_segmenter :
    (∀ t : List Char,
       (segmentText t).length =
         ((splitLineBreaks t).filter (fun l => decide (trimChars l ≠ []))).length) ∧
    (∀ (t s : List Char), s ∈ segmentText t → trimChars s = s ∧ s ≠ []) ∧
    (∀ t : List Char,
       (segmentText t).Sublist ((splitLineBreaks t).map trimChars)) ∧
    (∀ (segs : List String) (c : ℕ) (q : List String),
       enqueueSegments ⟨c, q⟩ segs = ⟨c + segs.length, q ++ withFillers c segs⟩) :=
  ⟨segmentText_length, segmentText_mem, segmentText_sublist, enqueueSegments_spec⟩

/-- Witness for C8 at concrete inputs: a two-line text yields two trimmed
segments, and four segments enqueued from counter 0 get one filler after the
third. -/
theorem claim8_segmenter_witness :
    (trimChars ['A'] = ['A'] ∧ (['A'] : List Char) ≠ []) ∧
    enqueueSegments ⟨0, []⟩ ["s1", "s2", "s3", "s4"] =
      ⟨0 + (["s1", "s2", "s3", "s4"] : List String).length,
        [] ++ withFillers 0 ["s1", "s2", "s3", "s4"]⟩ :=
  ⟨claim8_segmenter.2.1 ("A\nB".data) ['A'] (by decide),
   claim8_segmenter.2.2.2 ["s1", "s2", "s3", "s4"] 0 []⟩

/-- C9 counterexample: under the breathy style the filler fragment is
submitted unmodified, not wrapped with the soft-inhale and pause markers the
claim requires for every fragment. -/
theorem claim9_counterexample :
    annotateStyle "breathy" fillerCue = fillerCue ∧
    annotateStyle "breathy" fillerCue ≠
      "(soft inhale) " ++ fillerCue ++ " ... (pause)" := by
  decide

/-- C9 amended: for every fragment other than the fixed filler fragment the
style annotation is applied as claimed — breathy prepends the soft-inhale
marker and appends a pause marker, dramatic prepends the slow-delivery
marker and appends a longer pause marker, any other (neutral) style leaves
the text unmodified; the filler fragment is always passed through
unmodified, under every style. -/
theorem claim9_annotation_amended (raw : String) (hraw : raw ≠ fillerCue) :
    annotateStyle "breathy" raw = "(soft inhale) " ++ raw ++ " ... (pause)" ∧
    annotateStyle "dramatic" raw = "(slowly) " ++ raw ++ " ... (long pause)" ∧
    (∀ style, style ≠ "breathy" → style ≠ "dramatic" →
      annotateStyle style raw = raw) ∧
    (∀ style, annotateStyle style fillerCue = fillerCue) := by
  refine ⟨?_, ?_, ?_, ?_⟩
  · rw [annotateStyle, if_neg hraw, if_pos rfl]
  · rw [annotateStyle, if_neg hraw, if_neg (by decide), if_pos rfl]
  · intro style h1 h2
    rw [annotateStyle, if_neg hraw, if_neg h1, if_neg h2]
  · intro style
    rw [annotateStyle, if_pos rfl]

/-- Witness for C9 amended at a concrete fragment. -/
theorem claim9_annotation_amended_witness :
    annotateStyle "breathy" "Hello" =
      "(soft inhale) " ++ "Hello" ++ " ... (pause)" ∧
    annotateStyle "dramatic" "Hello" =
      "(slowly) " ++ "Hello" ++ " ... (long pause)" ∧
    (∀ style, style ≠ "breathy" → style ≠ "dramatic" →
      annotateStyle style "Hello" = "Hello") ∧
    (∀ style, annotateStyle style fillerCue = fillerCue) :=
  claim9_annotation_amended "Hello" (by decide)

/-- C10: an update with empty transcript text is discarded before the
duplicate-id check, leaving the cell untouched; the cell changes exactly
when the update has non-empty text and a new id; and a later update with the
same id but non-empty text is still accepted after an empty-text update with
that id was discarded. -/
theorem claim10_empty_text :
    (∀ (st : DedupState) (i : String),
       processNewDataGate st ⟨i, ""⟩ = (false, st)) ∧
    (∀ (st : DedupState) (u : Transcript),
       (processNewDataGate st u).2 ≠ st ↔
         (u.full_transcript_text ≠ "" ∧ st.lastProcessedId ≠ some u.id)) ∧
    (∀ (st : DedupState) (i t : String), t ≠ "" →
       st.lastProcessedId ≠ some i →
       (processNewDataGate ((processNewDataGate st ⟨i, ""⟩).2) ⟨i, t⟩).1 = true) := by
  refine ⟨?_, ?_, ?_⟩
  · intro st i
    rw [processNewDataGate]
    simp
  · intro st u
    constructor
    · intro hne
      by_cases h1 : u.full_transcript_text = ""
      · exact absurd (by rw [processNewDataGate, if_pos h1]) hne
      · by_cases h2 : st.lastProcessedId = some u.id
        · exact absurd (by rw [processNewDataGate, if_neg h1, if_pos h2]) hne
        · exact ⟨h1, h2⟩
    · rintro ⟨h1, h2⟩
      rw [gate_true_state st u ((gate_accept_iff st u).mpr ⟨h1, h2⟩)]
      intro he
      exact h2 (by rw [← he])
  · intro st i t ht hl
    have h0 : (processNewDataGate st ⟨i, ""⟩).2 = st := by
      rw [processNewDataGate]
      simp
    rw [h0]
    exact (gate_accept_iff st ⟨i, t⟩).mpr ⟨ht, hl⟩

/-- Witness for C10 at concrete inputs. -/
theorem claim10_empty_text_witness :
    processNewDataGate ⟨none⟩ ⟨"A", ""⟩ = (false, ⟨none⟩) ∧
    (processNewDataGate ((processNewDataGate ⟨none⟩ ⟨"A", ""⟩).2) ⟨"A", "hi"⟩).1 =
      true :=
  ⟨claim10_empty_text.1 ⟨none⟩ "A",
   claim10_empty_text.2.2 ⟨none⟩ "A" "hi" (by decide) (by decide)⟩

end OrbBridge

end ClaimTheorems

